import Mathlib

/-!
Shallow embedding of the front end in `src/analisadores.py` (the same lexer also
appears in `src/Compilador/lexer.py`): a sequential lexical analyzer producing a
token list, and a sequential semantic analyzer over a linear program
representation (lists of tagged nodes).  Definitions mirror the Python source;
the theorems below check the repository specification against them.

Conventions of the embedding:
* Python dicts used as tables become association lists (`busca` is the first
  match from the left; fresh keys are appended at the end, matching insertion
  order).
* The Python scope stack `self.escopos` (index 0 = global, last = innermost)
  is stored reversed: the head of `Estado.escopos` is the innermost scope and
  the last element is the global scope, so `reversed(self.escopos)` iteration
  becomes plain head-first iteration.
* `raise ErroSemantico(...)` becomes `Except.error` with one `Erro`
  constructor per raise site; `Erro.erroPython` models a Python runtime error
  (KeyError/IndexError) on states the program itself never reaches.
* A literal expression node carries only its type: the analyzer never reads
  the literal's value.
-/

namespace Compilador

/-! ### Tokens and the lexical analyzer (`AnalisadorLexico`) -/

inductive Valor where
  | num (n : Nat)
  | txt (s : String)
  | nil
deriving DecidableEq

structure Token where
  tipo : String
  valor : Valor
  linha : Nat
  coluna : Nat
deriving DecidableEq

/-- Lexical error: the offending character with its position. -/
structure ErroLexico where
  simbolo : Char
  linha : Nat
  coluna : Nat
deriving DecidableEq

def palavrasReservadas : List String :=
  ["int", "boolean", "procedure", "if", "else", "while",
   "return", "break", "continue", "print", "true", "false"]

def chaveEsq : Char := Char.ofNat 123

def chaveDir : Char := Char.ofNat 125

def isIdentStart (c : Char) : Bool := c.isAlpha || c == '_'

def isIdentChar (c : Char) : Bool := c.isAlphanum || c == '_'

def isOpSimples (c : Char) : Bool :=
  c == '+' || c == '-' || c == '*' || c == '/' || c == '<' || c == '>'

def isEspaco (c : Char) : Bool := c == ' ' || c == '\t' || c == '\r'

def pontuacaoTipo (c : Char) : Option String :=
  if c == '(' then some "LPAREN"
  else if c == ')' then some "RPAREN"
  else if c == chaveEsq then some "LBRACE"
  else if c == chaveDir then some "RBRACE"
  else if c == ',' then some "VIRG"
  else if c == ';' then some "PTO_V"
  else none

def digitoVal (c : Char) : Nat := c.toNat - 48

/-- `int(txt)` on a digit string. -/
def valorNumerico (ds : List Char) : Nat :=
  ds.foldl (fun a c => 10 * a + digitoVal c) 0

/-- Python's `txt.upper()` on the matched (ASCII) identifier text:
character-wise uppercase. -/
def maiuscula (s : String) : String := String.mk (s.data.map Char.toUpper)

def tokenPalavra (w : String) (linha coluna : Nat) : Token :=
  if palavrasReservadas.contains w then ⟨maiuscula w, .txt w, linha, coluna⟩
  else ⟨"ID", .txt w, linha, coluna⟩

theorem comprimentoDropWhile (p : α → Bool) (l : List α) :
    (l.dropWhile p).length ≤ l.length := by
  induction l with
  | nil => simp [List.dropWhile]
  | cons c resto ih =>
    rw [List.dropWhile_cons]
    split
    · exact Nat.le_succ_of_le ih
    · exact Nat.le_refl _

/-- The sequential scan loop of `AnalisadorLexico.analisar`: Python's
`REGEX.finditer` tries the patterns in declaration order at each position and
every character is covered (the catch-all `OUTRO` raises), so the sweep is a
deterministic tokenizer advancing through the text. -/
def lexLoop : List Char → Nat → Nat → List Token → Except ErroLexico (List Token)
  | [], linha, coluna, acc => .ok (acc ++ [⟨"EOF", .nil, linha, coluna⟩])
  | c :: resto, linha, coluna, acc =>
    if c.isDigit then
      let ds := c :: resto.takeWhile Char.isDigit
      lexLoop (resto.dropWhile Char.isDigit) linha (coluna + ds.length)
        (acc ++ [⟨"NUM", .num (valorNumerico ds), linha, coluna⟩])
    else if isIdentStart c then
      let ws := c :: resto.takeWhile isIdentChar
      lexLoop (resto.dropWhile isIdentChar) linha (coluna + ws.length)
        (acc ++ [tokenPalavra (String.mk ws) linha coluna])
    else if c == '=' then
      if resto.head? == some '=' then
        lexLoop resto.tail linha (coluna + 2) (acc ++ [⟨"OP", .txt "==", linha, coluna⟩])
      else
        lexLoop resto linha (coluna + 1) (acc ++ [⟨"ATRIB", .txt "=", linha, coluna⟩])
    else if c == '!' then
      if resto.head? == some '=' then
        lexLoop resto.tail linha (coluna + 2) (acc ++ [⟨"OP", .txt "!=", linha, coluna⟩])
      else .error ⟨c, linha, coluna⟩
    else if c == '>' then
      if resto.head? == some '=' then
        lexLoop resto.tail linha (coluna + 2) (acc ++ [⟨"OP", .txt ">=", linha, coluna⟩])
      else
        lexLoop resto linha (coluna + 1) (acc ++ [⟨"OP", .txt ">", linha, coluna⟩])
    else if c == '<' then
      if resto.head? == some '=' then
        lexLoop resto.tail linha (coluna + 2) (acc ++ [⟨"OP", .txt "<=", linha, coluna⟩])
      else
        lexLoop resto linha (coluna + 1) (acc ++ [⟨"OP", .txt "<", linha, coluna⟩])
    else if isOpSimples c then
      lexLoop resto linha (coluna + 1) (acc ++ [⟨"OP", .txt (String.mk [c]), linha, coluna⟩])
    else
      match pontuacaoTipo c with
      | some t =>
        lexLoop resto linha (coluna + 1) (acc ++ [⟨t, .txt (String.mk [c]), linha, coluna⟩])
      | none =>
        if isEspaco c then
          let ws := c :: resto.takeWhile isEspaco
          lexLoop (resto.dropWhile isEspaco) linha (coluna + ws.length) acc
        else if c == '\n' then
          lexLoop resto (linha + 1) 1 acc
        else .error ⟨c, linha, coluna⟩
termination_by cs _ _ _ => cs.length
decreasing_by
  all_goals simp only [List.length_cons, List.length_tail]
  all_goals first
    | exact Nat.lt_succ_of_le (comprimentoDropWhile ..)
    | omega

/-- `AnalisadorLexico.analisar`: scan the whole text starting at line 1,
column 1, with an empty token list. -/
def analisar (codigo : String) : Except ErroLexico (List Token) :=
  lexLoop codigo.data 1 1 []

/-- A character at a scan position matches some lexer pattern (given the
characters that follow): every pattern class of `PADROES` except the
catch-all `OUTRO`.  Only `!` depends on the following character (it is
consumed solely as part of `!=`). -/
def padraoCasa (c : Char) (resto : List Char) : Bool :=
  c.isDigit || isIdentStart c || c == '=' || (c == '!' && resto.head? == some '=') ||
    c == '>' || c == '<' || isOpSimples c || (pontuacaoTipo c).isSome ||
    isEspaco c || c == '\n'

/-- Every position inside the first list (continued by the second)
matches some lexer pattern. -/
def todasCasam : List Char → List Char → Prop
  | [], _ => True
  | c :: cs, cont => padraoCasa c (cs ++ cont) = true ∧ todasCasam cs cont

/-- Token line numbers are monotonically non-decreasing. -/
def linhaMonotona (ts : List Token) : Prop :=
  List.Chain' (fun a b => a.linha ≤ b.linha) ts

/-- The token list ends with exactly one end-of-input marker, in last
position. -/
def terminaComEOF (ts : List Token) : Prop :=
  ∃ ts0 lin col, ts = ts0 ++ [⟨"EOF", .nil, lin, col⟩] ∧ ∀ t ∈ ts0, t.tipo ≠ "EOF"

/-! ### Program representation consumed by `AnalisadorSemantico` -/

/-- A parameter pair as written in the Python programs: `(tipo, nome)`. -/
abbrev Param := String × String

/-- Expression dictionaries (`kind` tagged).  A literal carries only its
type: `avaliar_expressao_tipo` never reads a literal's value. -/
inductive Expr where
  | lit (tipo : String)
  | var (nome : String)
  | unop (op : String) (e : Expr)
  | binop (op : String) (left right : Expr)
  | call (nome : String) (args : List Expr)

/-- Program/statement dictionaries (`kind` tagged).  `se`, `enquanto`,
`imprime` and `ret` stand for the Python kinds `if`, `while`, `print` and
`return`; `outro` stands for any node whose kind is none of the recognized
strings. -/
inductive Node where
  | vardecl (tipo nome : String) (expr : Option Expr)
  | funcdecl (nome tipo : String) (params : List Param)
  | procdecl (nome : String) (params : List Param)
  | funcbody (nome : String) (params : List Param) (body : List Node)
  | procbody (nome : String) (params : List Param) (body : List Node)
  | assign (nome : String) (expr : Expr)
  | call (nome : String) (args : List Expr)
  | ret (expr : Expr)
  | se (cond : Expr) (body : List Node) (senao : Option (List Node))
  | enquanto (cond : Expr) (body : List Node)
  | imprime (expr : Expr)
  | jump (op : String)
  | outro (kind : String)

/-- One constructor per `raise ErroSemantico(...)` site of
`src/analisadores.py`, carrying the data interpolated into the message.
`erroPython` models a Python runtime error (KeyError/IndexError) raised on
states that `checar_programa` itself never produces. -/
inductive Erro where
  | varJaDeclarada (nome : String)
  | funcJaDeclarada (nome : String)
  | varSemDeclaracao (nome : String)
  | unarioExigeBoolean
  | unarioDesconhecido (op : String)
  | operadorExigeInt (op : String)
  | comparacaoTipos (t1 t2 : String)
  | operadorExigeBoolean (op : String)
  | operadorDesconhecido (op : String)
  | numArgsFuncao (nome : String)
  | numArgsProced (nome : String)
  | argTipo (idx : Nat) (nome tipo esperado : String)
  | procEmExpressao (nome : String)
  | funcNaoDeclarada (nome : String)
  | chamadaNaoDeclarada (nome : String)
  | duplicadaGlobal (nome : String)
  | inicializacaoTipo (nome tipo esperado : String)
  | atribNaoDeclarada (nome : String)
  | atribTipos (tvar texpr : String)
  | corpoSemDecl (nome : String)
  | corpoProcSemDecl (nome : String)
  | condNaoBoolean (kind : String)
  | returnEmProcedimento (nome : String)
  | retornoTipo (nome tipo esperado : String)
  | jumpDesconhecido (op : String)
  | returnForaDeCorpo
  | funcaoSemRetorno (nome : String)
  | funcaoSemCorpo (nome : String)
  | procSemCorpo (nome : String)
  | erroPython (nome : String)
deriving DecidableEq

/-- First match from the left in an association list (Python dict lookup;
keys stay unique because entries are only appended when absent). -/
def busca {α : Type} : List (String × α) → String → Option α
  | [], _ => none
  | (k, v) :: resto, chave => if k == chave then some v else busca resto chave

/-- Python's `chave in dict`. -/
def contem {α : Type} (l : List (String × α)) (chave : String) : Bool :=
  (busca l chave).isSome

/-- Python's `set.add`. -/
def adicionaSet (s : List String) (x : String) : List String :=
  if s.contains x then s else s ++ [x]

/-- Analyzer state: the two signature tables and the scope stack.  The head
of `escopos` is the innermost scope (Python's `self.escopos[-1]`) and the
last element is the global scope (Python's `self.escopos[0]`). -/
structure Estado where
  tabFuncoes : List (String × String × List Param)
  tabProceds : List (String × List Param)
  escopos : List (List (String × String))
deriving DecidableEq

/-- Fresh environment: empty tables, a single empty global scope
(`self.escopos = [ {} ]`). -/
def estadoInicial : Estado := ⟨[], [], [[]]⟩

/-! ### Scope and registration utilities -/

def abrirEscopo (st : Estado) : Estado := { st with escopos := [] :: st.escopos }

/-- `fechar_escopo`: never removes the global scope. -/
def fecharEscopo (st : Estado) : Estado :=
  match st.escopos with
  | [] => st
  | [g] => { st with escopos := [g] }
  | _ :: resto => { st with escopos := resto }

/-- `declarar_variavel_atual`: fails if the name is already bound in the
innermost scope, otherwise binds it there. -/
def declararVariavelAtual (st : Estado) (nome tipo : String) : Except Erro Estado :=
  match st.escopos with
  | [] => .error (.erroPython nome)
  | esc :: resto =>
    if contem esc nome then .error (.varJaDeclarada nome)
    else .ok { st with escopos := (esc ++ [(nome, tipo)]) :: resto }

def buscaEscopos : List (List (String × String)) → String → Option String
  | [], _ => none
  | esc :: resto, nome =>
    match busca esc nome with
    | some t => some t
    | none => buscaEscopos resto nome

/-- `buscar_variavel`: innermost-to-outermost search. -/
def buscarVariavel (st : Estado) (nome : String) : Option String :=
  buscaEscopos st.escopos nome

def registrarFuncao (st : Estado) (nome tipoRet : String) (params : List Param) :
    Except Erro Estado :=
  if contem st.tabFuncoes nome || contem st.tabProceds nome then
    .error (.funcJaDeclarada nome)
  else .ok { st with tabFuncoes := st.tabFuncoes ++ [(nome, tipoRet, params)] }

def registrarProcedimento (st : Estado) (nome : String) (params : List Param) :
    Except Erro Estado :=
  if contem st.tabFuncoes nome || contem st.tabProceds nome then
    .error (.funcJaDeclarada nome)
  else .ok { st with tabProceds := st.tabProceds ++ [(nome, params)] }

/-! ### Expression typing (`avaliar_expressao_tipo`) -/

mutual

/-- `avaliar_expressao_tipo`: returns the type of an expression, reading
(but never modifying) the analyzer state. -/
def avaliarExpressaoTipo (st : Estado) : Expr → Except Erro String
  | .lit tipo => .ok tipo
  | .var nome =>
    match buscarVariavel st nome with
    | some tipo => .ok tipo
    | none => .error (.varSemDeclaracao nome)
  | .unop op e => do
    let t ← avaliarExpressaoTipo st e
    if op == "!" then
      if t != "boolean" then .error .unarioExigeBoolean else .ok "boolean"
    else .error (.unarioDesconhecido op)
  | .binop op left right => do
    let tleft ← avaliarExpressaoTipo st left
    let tright ← avaliarExpressaoTipo st right
    if op == "+" || op == "-" || op == "*" || op == "/" then
      if tleft != "int" || tright != "int" then .error (.operadorExigeInt op)
      else .ok "int"
    else if op == "==" || op == "!=" || op == ">" || op == "<" || op == ">=" || op == "<=" then
      if tleft != tright then .error (.comparacaoTipos tleft tright)
      else .ok "boolean"
    else if op == "&&" || op == "||" then
      if tleft != "boolean" || tright != "boolean" then .error (.operadorExigeBoolean op)
      else .ok "boolean"
    else .error (.operadorDesconhecido op)
  | .call nome args => chamadaEmExpressao st nome args

/-- `_checar_chamada_em_expressao`: a call nested in an expression must be a
declared function; arity is checked before argument types. -/
def chamadaEmExpressao (st : Estado) (nome : String) (args : List Expr) :
    Except Erro String :=
  match busca st.tabFuncoes nome with
  | some (tipoRetorno, params) =>
    if params.length != args.length then .error (.numArgsFuncao nome)
    else do
      checarArgs st nome args params 0
      .ok tipoRetorno
  | none =>
    if contem st.tabProceds nome then .error (.procEmExpressao nome)
    else .error (.funcNaoDeclarada nome)

/-- The `for idx, arg in enumerate(args)` argument-checking loop shared by
the call checkers; `idx` is the 0-based position reached so far.  The
callers guard `len(params) == len(args)`, so the `params = []` case with
remaining arguments (a Python IndexError) is unreachable. -/
def checarArgs (st : Estado) (nome : String) :
    List Expr → List Param → Nat → Except Erro Unit
  | [], _, _ => .ok ()
  | _ :: _, [], _ => .error (.erroPython nome)
  | a :: resto, p :: prest, idx => do
    let t ← avaliarExpressaoTipo st a
    if t != p.1 then .error (.argTipo (idx + 1) nome t p.1)
    else checarArgs st nome resto prest (idx + 1)

end

/-- `_checar_chamada_como_comando`: a call statement may target a function
(value discarded) or a procedure; unknown names fail. -/
def chamadaComoComando (st : Estado) (nome : String) (args : List Expr) :
    Except Erro Unit :=
  match busca st.tabFuncoes nome with
  | some (_, params) =>
    if params.length != args.length then .error (.numArgsFuncao nome)
    else checarArgs st nome args params 0
  | none =>
    match busca st.tabProceds nome with
    | some params =>
      if params.length != args.length then .error (.numArgsProced nome)
      else checarArgs st nome args params 0
    | none => .error (.chamadaNaoDeclarada nome)

/-- `_checar_assign`. -/
def checarAssign (st : Estado) (nome : String) (expr : Expr) : Except Erro Unit :=
  match buscarVariavel st nome with
  | none => .error (.atribNaoDeclarada nome)
  | some tvar => do
    let texpr ← avaliarExpressaoTipo st expr
    if tvar != texpr then .error (.atribTipos tvar texpr) else .ok ()

/-! ### Statement checking (`checar_elemento` and bodies) -/

mutual

/-- `checar_elemento`: the single-statement checker.  Any kind other than
assign/call/vardecl/if/while/print/jump/return falls into the final
`else: pass` and is accepted without touching the state. -/
def checarElemento (st : Estado) : Node → Except Erro Estado
  | .assign nome expr => do
    checarAssign st nome expr
    .ok st
  | .call nome args => do
    chamadaComoComando st nome args
    .ok st
  | .vardecl tipo nome expr? => do
    let st' ← declararVariavelAtual st nome tipo
    match expr? with
    | none => .ok st'
    | some e => do
      let tinit ← avaliarExpressaoTipo st' e
      if tinit != tipo then .error (.inicializacaoTipo nome tinit tipo)
      else .ok st'
  | .se cond body senao => do
    let tcond ← avaliarExpressaoTipo st cond
    if tcond != "boolean" then .error (.condNaoBoolean "if")
    else do
      let st1 ← checarLista (abrirEscopo st) body
      let st2 := fecharEscopo st1
      match senao with
      | none => .ok st2
      | some cmds => do
        let st3 ← checarLista (abrirEscopo st2) cmds
        .ok (fecharEscopo st3)
  | .enquanto cond body => do
    let tcond ← avaliarExpressaoTipo st cond
    if tcond != "boolean" then .error (.condNaoBoolean "while")
    else do
      let st1 ← checarLista (abrirEscopo st) body
      .ok (fecharEscopo st1)
  | .imprime e => do
    let _ ← avaliarExpressaoTipo st e
    .ok st
  | .jump op =>
    if op != "break" && op != "continue" then .error (.jumpDesconhecido op)
    else .ok st
  | .ret _ => .error .returnForaDeCorpo
  | .funcdecl .. => .ok st
  | .procdecl .. => .ok st
  | .funcbody .. => .ok st
  | .procbody .. => .ok st
  | .outro _ => .ok st

/-- Sequential `for cmd in ...: self.checar_elemento(cmd)` threading the
mutated analyzer state. -/
def checarLista (st : Estado) : List Node → Except Erro Estado
  | [] => .ok st
  | c :: resto => do
    let st' ← checarElemento st c
    checarLista st' resto

end

/-- The `for cmd in body` loop of `_checar_corpo_funcional`, threading the
state and the `encontrou_return` flag.  Statements nested in `if`/`while`
branches go through `checar_elemento` (so a nested `return` raises, and
never sets the flag). -/
def corpoLoop (nome : String) (isFunc : Bool) :
    Estado → List Node → Bool → Except Erro (Estado × Bool)
  | st, [], encontrou => .ok (st, encontrou)
  | st, cmd :: resto, encontrou =>
    match cmd with
    | .vardecl tipo vnome expr? => do
      let st' ← declararVariavelAtual st vnome tipo
      match expr? with
      | none => corpoLoop nome isFunc st' resto encontrou
      | some e => do
        let tinit ← avaliarExpressaoTipo st' e
        if tinit != tipo then .error (.inicializacaoTipo vnome tinit tipo)
        else corpoLoop nome isFunc st' resto encontrou
    | .assign anome expr => do
      checarAssign st anome expr
      corpoLoop nome isFunc st resto encontrou
    | .call cnome args => do
      chamadaComoComando st cnome args
      corpoLoop nome isFunc st resto encontrou
    | .ret e =>
      if !isFunc then .error (.returnEmProcedimento nome)
      else
        match busca st.tabFuncoes nome with
        | none => .error (.erroPython nome)
        | some (tipoRet, _) => do
          let texpr ← avaliarExpressaoTipo st e
          if texpr != tipoRet then .error (.retornoTipo nome texpr tipoRet)
          else corpoLoop nome isFunc st resto true
    | .se cond body senao => do
      let tcond ← avaliarExpressaoTipo st cond
      if tcond != "boolean" then .error (.condNaoBoolean "if")
      else do
        let st1 ← checarLista (abrirEscopo st) body
        let st2 := fecharEscopo st1
        match senao with
        | none => corpoLoop nome isFunc st2 resto encontrou
        | some cmds => do
          let st3 ← checarLista (abrirEscopo st2) cmds
          corpoLoop nome isFunc (fecharEscopo st3) resto encontrou
    | .enquanto cond body => do
      let tcond ← avaliarExpressaoTipo st cond
      if tcond != "boolean" then .error (.condNaoBoolean "while")
      else do
        let st1 ← checarLista (abrirEscopo st) body
        corpoLoop nome isFunc (fecharEscopo st1) resto encontrou
    | .imprime e => do
      let _ ← avaliarExpressaoTipo st e
      corpoLoop nome isFunc st resto encontrou
    | .jump op =>
      if op != "break" && op != "continue" then .error (.jumpDesconhecido op)
      else corpoLoop nome isFunc st resto encontrou
    | cmd' => do
      let st' ← checarElemento st cmd'
      corpoLoop nome isFunc st' resto encontrou

/-- The parameter-declaration loop of `_checar_corpo_funcional`
(`for tipo, pname in params`). -/
def declararParams : Estado → List Param → Except Erro Estado
  | st, [] => .ok st
  | st, (tipo, pname) :: resto => do
    let st' ← declararVariavelAtual st pname tipo
    declararParams st' resto

/-- `_checar_corpo_funcional`: open a scope, declare the parameters stated
on the body node, process the body, close the scope, and for functions
require that a direct `return` was observed. -/
def checarCorpoFuncional (st : Estado) (nome : String) (params : List Param)
    (body : List Node) (isFunc : Bool) : Except Erro Estado := do
  let st1 ← declararParams (abrirEscopo st) params
  let (st2, encontrou) ← corpoLoop nome isFunc st1 body false
  let st3 := fecharEscopo st2
  if isFunc && !encontrou then .error (.funcaoSemRetorno nome)
  else .ok st3

/-! ### `checar_programa`: the three sequential passes -/

/-- Pass 1 body: signatures and global variables.  `self.escopos[0]` is the
global scope, i.e. the last element of our reversed stack. -/
def fase1Passo (st : Estado) : Node → Except Erro Estado
  | .vardecl tipo nome _ =>
    match st.escopos.getLast? with
    | none => .error (.erroPython nome)
    | some g =>
      if contem g nome then .error (.duplicadaGlobal nome)
      else .ok { st with escopos := st.escopos.dropLast ++ [g ++ [(nome, tipo)]] }
  | .funcdecl nome tipoRet params => registrarFuncao st nome tipoRet params
  | .procdecl nome params => registrarProcedimento st nome params
  | _ => .ok st

def fase1 : Estado → List Node → Except Erro Estado
  | st, [] => .ok st
  | st, elem :: resto => do
    let st' ← fase1Passo st elem
    fase1 st' resto

/-- Pass 2 body: per-element validation, accumulating the names whose
`funcbody`/`procbody` has been processed.  Top-level `if`/`while` check
their branches through `checar_elemento` in the current scope (no scope is
pushed at this level). -/
def fase2Passo (st : Estado) (fb pb : List String) :
    Node → Except Erro (Estado × List String × List String)
  | .vardecl tipo nome expr? =>
    match expr? with
    | none => .ok (st, fb, pb)
    | some e => do
      let t ← avaliarExpressaoTipo st e
      if t != tipo then .error (.inicializacaoTipo nome t tipo)
      else .ok (st, fb, pb)
  | .assign nome expr => do
    checarAssign st nome expr
    .ok (st, fb, pb)
  | .call nome args => do
    chamadaComoComando st nome args
    .ok (st, fb, pb)
  | .funcbody nome params body =>
    if !contem st.tabFuncoes nome then .error (.corpoSemDecl nome)
    else do
      let st' ← checarCorpoFuncional st nome params body true
      .ok (st', adicionaSet fb nome, pb)
  | .procbody nome params body =>
    if !contem st.tabProceds nome then .error (.corpoProcSemDecl nome)
    else do
      let st' ← checarCorpoFuncional st nome params body false
      .ok (st', fb, adicionaSet pb nome)
  | .se cond body senao => do
    let tcond ← avaliarExpressaoTipo st cond
    if tcond != "boolean" then .error (.condNaoBoolean "if")
    else do
      let st1 ← checarLista st body
      match senao with
      | none => .ok (st1, fb, pb)
      | some cmds => do
        let st2 ← checarLista st1 cmds
        .ok (st2, fb, pb)
  | .enquanto cond body => do
    let tcond ← avaliarExpressaoTipo st cond
    if tcond != "boolean" then .error (.condNaoBoolean "while")
    else do
      let st1 ← checarLista st body
      .ok (st1, fb, pb)
  | elem => do
    let st' ← checarElemento st elem
    .ok (st', fb, pb)

def fase2 (st : Estado) (fb pb : List String) :
    List Node → Except Erro (Estado × List String × List String)
  | [] => .ok (st, fb, pb)
  | elem :: resto => do
    let (st', fb', pb') ← fase2Passo st fb pb elem
    fase2 st' fb' pb' resto

/-- Pass 3, function half: every registered function needs a processed
body (iteration in table insertion order). -/
def fase3Funcoes : List (String × String × List Param) → List String → Except Erro Unit
  | [], _ => .ok ()
  | (nome, _, _) :: resto, fb =>
    if !fb.contains nome then .error (.funcaoSemCorpo nome)
    else fase3Funcoes resto fb

/-- Pass 3, procedure half. -/
def fase3Proceds : List (String × List Param) → List String → Except Erro Unit
  | [], _ => .ok ()
  | (nome, _) :: resto, pb =>
    if !pb.contains nome then .error (.procSemCorpo nome)
    else fase3Proceds resto pb

def fase3 (st : Estado) (fb pb : List String) : Except Erro Unit := do
  fase3Funcoes st.tabFuncoes fb
  fase3Proceds st.tabProceds pb

/-- `checar_programa`, returning the analyzer state it leaves behind
(the Python method mutates `self`; exposing the final state lets theorems
speak about the scope stack after a check). -/
def checarProgramaEstado (prog : List Node) : Except Erro Estado := do
  let st1 ← fase1 estadoInicial prog
  let (st2, fb, pb) ← fase2 st1 [] [] prog
  fase3 st2 fb pb
  .ok st2

/-- `checar_programa` as the callers see it: success or the first error. -/
def checarPrograma (prog : List Node) : Except Erro Unit := do
  let _ ← checarProgramaEstado prog
  .ok ()

/-- True exactly for the node kinds that fall into the final `else: pass`
of `checar_elemento` (anything outside assign/call/vardecl/if/while/print/
jump/return). -/
def kindNaoReconhecido : Node → Bool
  | .funcdecl .. => true
  | .procdecl .. => true
  | .funcbody .. => true
  | .procbody .. => true
  | .outro _ => true
  | _ => false

/-- `body.all` test: no direct child of the statement list is a `return`
node. -/
def semReturnDireto (body : List Node) : Bool :=
  body.all fun c => match c with | .ret _ => false | _ => true

/-- The error sub-kinds the specification groups as *MissingBody*. -/
def eMissingBody : Erro → Bool
  | .funcaoSemCorpo _ => true
  | .procSemCorpo _ => true
  | _ => false

/-- The end-to-end example program of the specification (and of the
repository's `__main__` block): `vardecl int x; funcdecl int soma(int a,
int b); funcbody soma; assign x = soma(3, 4); call print(x)`. -/
def progExemplo : List Node :=
  [ .vardecl "int" "x" none,
    .funcdecl "soma" "int" [("int", "a"), ("int", "b")],
    .funcbody "soma" [("int", "a"), ("int", "b")]
      [ .ret (.binop "+" (.var "a") (.var "b")) ],
    .assign "x" (.call "soma" [.lit "int", .lit "int"]),
    .call "print" [.var "x"] ]

/-- The same program with the final call-statement replaced by the
analyzer's own print-statement node kind. -/
def progExemploImprime : List Node :=
  [ .vardecl "int" "x" none,
    .funcdecl "soma" "int" [("int", "a"), ("int", "b")],
    .funcbody "soma" [("int", "a"), ("int", "b")]
      [ .ret (.binop "+" (.var "a") (.var "b")) ],
    .assign "x" (.call "soma" [.lit "int", .lit "int"]),
    .imprime (.var "x") ]

/-- A function whose only `return` statements sit inside the two branches
of an `if`, not in the body's direct statement list. -/
def progRetornoAninhado : List Node :=
  [ .funcdecl "f" "int" [],
    .funcbody "f" []
      [ .se (.lit "boolean") [ .ret (.lit "int") ] (some [ .ret (.lit "int") ]) ] ]

/-- A top-level `if` whose branch declares a variable. -/
def progRamoTopo : List Node :=
  [ .se (.lit "boolean") [ .vardecl "int" "y" none ] none ]

/-! ### General-purpose lemmas -/

theorem bindOk {ε α β : Type} (a : α) (f : α → Except ε β) :
    (Except.ok a : Except ε α) >>= f = f a := rfl

theorem bindErr {ε α β : Type} (e : ε) (f : α → Except ε β) :
    (Except.error e : Except ε α) >>= f = .error e := rfl

theorem buscaAppend {α : Type} (l1 l2 : List (String × α)) (k : String) :
    busca (l1 ++ l2) k = ((busca l1 k).rec (busca l2 k) fun t => some t) := by
  induction l1 with
  | nil => simp [busca]
  | cons p resto ih =>
    by_cases h : p.1 == k <;> simp [busca, h, ih]

theorem buscaAppendEsquerda {α : Type} {l1 : List (String × α)} {k : String} {t : α}
    (l2 : List (String × α)) (h : busca l1 k = some t) :
    busca (l1 ++ l2) k = some t := by
  rw [buscaAppend, h]

theorem buscaAppendDireita {α : Type} {l1 : List (String × α)} {k : String}
    (l2 : List (String × α)) (h : busca l1 k = none) :
    busca (l1 ++ l2) k = busca l2 k := by
  rw [buscaAppend, h]

theorem contemAppend {α : Type} (l1 l2 : List (String × α)) (k : String) :
    contem (l1 ++ l2) k = (contem l1 k || contem l2 k) := by
  unfold contem
  cases h : busca l1 k with
  | none => rw [buscaAppendDireita l2 h]; simp [h]
  | some t => rw [buscaAppendEsquerda l2 h]; simp [h]

/-! ### Claim C4 -/

/-- Claim C4: on a binop node, the arithmetic operators `+ - * /` require
both operand types to be `int` and yield `int`, and the relational
operators `== != > < >= <=` require equal operand types and yield
`boolean`; in particular `int + int` is `int`, `int + boolean` fails,
`int == int` is `boolean`, and `int == boolean` fails with the type
mismatch error. -/
theorem avaliarBinopEspec (st : Estado) (l r : Expr) (tl tr : String)
    (hl : avaliarExpressaoTipo st l = .ok tl)
    (hr : avaliarExpressaoTipo st r = .ok tr) :
    (∀ op ∈ (["+", "-", "*", "/"] : List String),
      avaliarExpressaoTipo st (.binop op l r) =
        if tl = "int" ∧ tr = "int" then .ok "int"
        else .error (.operadorExigeInt op)) ∧
    (∀ op ∈ (["==", "!=", ">", "<", ">=", "<="] : List String),
      avaliarExpressaoTipo st (.binop op l r) =
        if tl = tr then .ok "boolean" else .error (.comparacaoTipos tl tr)) ∧
    avaliarExpressaoTipo st (.binop "+" (.lit "int") (.lit "int")) = .ok "int" ∧
    avaliarExpressaoTipo st (.binop "+" (.lit "int") (.lit "boolean")) =
      .error (.operadorExigeInt "+") ∧
    avaliarExpressaoTipo st (.binop "==" (.lit "int") (.lit "int")) = .ok "boolean" ∧
    avaliarExpressaoTipo st (.binop "==" (.lit "int") (.lit "boolean")) =
      .error (.comparacaoTipos "int" "boolean") := by
  refine ⟨?_, ?_, ?_, ?_, ?_, ?_⟩
  · intro op hop
    simp only [List.mem_cons, List.not_mem_nil, or_false] at hop
    rcases hop with rfl | rfl | rfl | rfl <;>
      · simp only [avaliarExpressaoTipo, hl, hr, bindOk]
        by_cases h1 : tl = "int" <;> by_cases h2 : tr = "int" <;>
          simp +decide [h1, h2]
  · intro op hop
    simp only [List.mem_cons, List.not_mem_nil, or_false] at hop
    rcases hop with rfl | rfl | rfl | rfl | rfl | rfl <;>
      · simp only [avaliarExpressaoTipo, hl, hr, bindOk]
        by_cases h : tl = tr <;> simp +decide [h]
  all_goals simp +decide [avaliarExpressaoTipo, bindOk]

/-- Witness for C4 at concrete operands. -/
theorem avaliarBinopEspecTeste :
    avaliarExpressaoTipo estadoInicial (.binop "+" (.lit "int") (.lit "int")) = .ok "int" ∧
    avaliarExpressaoTipo estadoInicial (.binop "==" (.lit "int") (.lit "boolean")) =
      .error (.comparacaoTipos "int" "boolean") := by
  have h := avaliarBinopEspec estadoInicial (.lit "int") (.lit "int") "int" "int"
    (by simp [avaliarExpressaoTipo]) (by simp [avaliarExpressaoTipo])
  exact ⟨h.2.2.1, h.2.2.2.2.2⟩

/-! ### Claim C10 -/

/-- Claim C10: any node whose kind is outside
assign/call/vardecl/if/while/print/jump/return is accepted by the
single-statement checker `checar_elemento` without error and without any
change to the analyzer state. -/
theorem checarElementoIgnoraDesconhecido (st : Estado) (n : Node)
    (h : kindNaoReconhecido n = true) : checarElemento st n = .ok st := by
  cases n <;> simp [kindNaoReconhecido] at h <;> simp [checarElemento]

/-- Witness for C10 on a node of unknown kind. -/
theorem checarElementoIgnoraDesconhecidoTeste :
    checarElemento estadoInicial (.outro "misterio") = .ok estadoInicial :=
  checarElementoIgnoraDesconhecido estadoInicial (.outro "misterio") rfl

/-! ### Claim C7 -/

/-- Claim C7: declaring a variable already bound in the innermost scope
fails with the duplicate-declaration error; declaring a name not bound in
the innermost scope succeeds (even if bound in an outer scope), and
afterwards lookup finds the new innermost binding; lookup walks the stack
innermost-to-outermost and the first scope containing the name wins. -/
theorem escopoEspec (funcs : List (String × String × List Param))
    (procs : List (String × List Param)) (esc : List (String × String))
    (resto : List (List (String × String))) (nome tipo : String) :
    (contem esc nome = true →
      declararVariavelAtual ⟨funcs, procs, esc :: resto⟩ nome tipo =
        .error (.varJaDeclarada nome)) ∧
    (contem esc nome = false →
      declararVariavelAtual ⟨funcs, procs, esc :: resto⟩ nome tipo =
        .ok ⟨funcs, procs, (esc ++ [(nome, tipo)]) :: resto⟩ ∧
      buscarVariavel ⟨funcs, procs, (esc ++ [(nome, tipo)]) :: resto⟩ nome =
        some tipo) ∧
    (∀ t, busca esc nome = some t →
      buscarVariavel ⟨funcs, procs, esc :: resto⟩ nome = some t) ∧
    (busca esc nome = none →
      buscarVariavel ⟨funcs, procs, esc :: resto⟩ nome = buscaEscopos resto nome) := by
  refine ⟨?_, ?_, ?_, ?_⟩
  · intro h
    simp [declararVariavelAtual, h]
  · intro h
    constructor
    · simp [declararVariavelAtual, h]
    · have hb : busca esc nome = none := by
        unfold contem at h
        exact Option.eq_none_of_isNone (by simpa using h)
      have : busca (esc ++ [(nome, tipo)]) nome = some tipo := by
        rw [buscaAppendDireita _ hb]
        simp [busca]
      simp [buscarVariavel, buscaEscopos, this]
  · intro t h
    simp [buscarVariavel, buscaEscopos, h]
  · intro h
    simp [buscarVariavel, buscaEscopos, h]

/-- Witness for C7: duplicate declaration in the innermost scope fails,
and lookup prefers the innermost of two bindings of the same name. -/
theorem escopoEspecTeste :
    declararVariavelAtual ⟨[], [], [[("x", "int")], [("x", "boolean")]]⟩ "x" "boolean" =
      .error (.varJaDeclarada "x") ∧
    buscarVariavel ⟨[], [], [[("x", "int")], [("x", "boolean")]]⟩ "x" = some "int" := by
  have h := escopoEspec [] [] [("x", "int")] [[("x", "boolean")]] "x" "boolean"
  exact ⟨h.1 rfl, h.2.2.1 "int" rfl⟩

/-! ### Claim C6 -/

theorem checarArgsOkIff (st : Estado) (nome : String) :
    ∀ (args : List Expr) (params : List Param) (idx : Nat),
      args.length ≤ params.length →
      (checarArgs st nome args params idx = .ok () ↔
        ∀ p ∈ args.zip params, avaliarExpressaoTipo st p.1 = .ok p.2.1) := by
  intro args
  induction args with
  | nil => intro params idx _; simp [checarArgs]
  | cons a resto ih =>
    intro params idx hlen
    cases params with
    | nil => simp at hlen
    | cons p prest =>
      simp only [List.length_cons, Nat.add_le_add_iff_right] at hlen
      cases he : avaliarExpressaoTipo st a with
      | error e =>
        simp only [checarArgs, he, bindErr]
        constructor
        · intro h; exact absurd h (by simp)
        · intro h
          have := h (a, p) (by rw [List.zip_cons_cons]; exact List.mem_cons_self _ _)
          rw [he] at this
          exact absurd this (by simp)
      | ok t =>
        by_cases hp : t = p.1
        · subst hp
          simp only [checarArgs, he, bindOk]
          rw [if_neg (by simp)]
          rw [ih prest (idx + 1) hlen]
          constructor
          · intro h q hq
            rw [List.zip_cons_cons] at hq
            rcases List.mem_cons.mp hq with rfl | hq'
            · exact he
            · exact h q hq'
          · intro h q hq
            exact h q (by rw [List.zip_cons_cons]; exact List.mem_cons_of_mem _ hq)
        · simp only [checarArgs, he, bindOk]
          rw [if_pos (by simpa using hp)]
          constructor
          · intro h; exact absurd h (by simp)
          · intro h
            have := h (a, p) (by rw [List.zip_cons_cons]; exact List.mem_cons_self _ _)
            rw [he] at this
            exact absurd (Except.ok.inj this) hp

/-- Claim C6: a call nested in an expression resolves a procedure name to
the procedure-used-as-value error, an unknown name to the undeclared
error, and a function name first by arity (wrong argument count fails
regardless of argument types) and then by per-position argument types,
returning the declared return type exactly when every argument's type
matches its parameter. -/
theorem chamadaEmExpressaoEspec (st : Estado) (nome : String) (args : List Expr) :
    (busca st.tabFuncoes nome = none → contem st.tabProceds nome = true →
      avaliarExpressaoTipo st (.call nome args) = .error (.procEmExpressao nome)) ∧
    (busca st.tabFuncoes nome = none → contem st.tabProceds nome = false →
      avaliarExpressaoTipo st (.call nome args) = .error (.funcNaoDeclarada nome)) ∧
    (∀ tret params, busca st.tabFuncoes nome = some (tret, params) →
      (args.length ≠ params.length →
        avaliarExpressaoTipo st (.call nome args) = .error (.numArgsFuncao nome)) ∧
      (args.length = params.length →
        ((∀ p ∈ args.zip params, avaliarExpressaoTipo st p.1 = .ok p.2.1) →
          avaliarExpressaoTipo st (.call nome args) = .ok tret) ∧
        (∀ t, avaliarExpressaoTipo st (.call nome args) = .ok t →
          t = tret ∧
          ∀ p ∈ args.zip params, avaliarExpressaoTipo st p.1 = .ok p.2.1))) := by
  have hdef : avaliarExpressaoTipo st (.call nome args) = chamadaEmExpressao st nome args := by
    simp [avaliarExpressaoTipo]
  refine ⟨?_, ?_, ?_⟩
  · intro hf hp
    rw [hdef]
    simp [chamadaEmExpressao, hf, hp]
  · intro hf hp
    rw [hdef]
    simp [chamadaEmExpressao, hf, hp]
  · intro tret params hf
    constructor
    · intro hlen
      rw [hdef]
      simp only [chamadaEmExpressao, hf]
      rw [if_pos (by simpa using fun h => hlen h.symm)]
    · intro hlen
      have hred : avaliarExpressaoTipo st (.call nome args) =
          (do checarArgs st nome args params 0; (.ok tret : Except Erro String)) := by
        rw [hdef]
        simp only [chamadaEmExpressao, hf]
        rw [if_neg (by simp [hlen])]
      constructor
      · intro hall
        rw [hred]
        have := (checarArgsOkIff st nome args params 0 (le_of_eq hlen)).mpr hall
        rw [this, bindOk]
      · intro t ht
        rw [hred] at ht
        cases hc : checarArgs st nome args params 0 with
        | error e => rw [hc, bindErr] at ht; exact absurd ht (by simp)
        | ok u =>
          rw [hc, bindOk] at ht
          refine ⟨(Except.ok.inj ht).symm, ?_⟩
          exact (checarArgsOkIff st nome args params 0 (le_of_eq hlen)).mp (by simpa using hc)

/-- Witness for C6: with `f(int a, int b)` a function and `p()` a
procedure, using `p` in an expression fails as procedure-used-as-value,
and calling `f` with one ill-typed argument fails on arity before the
argument type is ever compared. -/
theorem chamadaEmExpressaoEspecTeste :
    avaliarExpressaoTipo ⟨[("f", "int", [("int", "a"), ("int", "b")])], [("p", [])], [[]]⟩
      (.call "p" []) = .error (.procEmExpressao "p") ∧
    avaliarExpressaoTipo ⟨[("f", "int", [("int", "a"), ("int", "b")])], [("p", [])], [[]]⟩
      (.call "f" [.lit "boolean"]) = .error (.numArgsFuncao "f") := by
  constructor
  · exact (chamadaEmExpressaoEspec
      (⟨[("f", "int", [("int", "a"), ("int", "b")])], [("p", [])], [[]]⟩ : Estado)
      "p" []).1 rfl rfl
  · exact ((chamadaEmExpressaoEspec
      (⟨[("f", "int", [("int", "a"), ("int", "b")])], [("p", [])], [[]]⟩ : Estado)
      "f" [.lit "boolean"]).2.2 "int" [("int", "a"), ("int", "b")] rfl).1 (by decide)

theorem bindOkIff {ε α β : Type} (X : Except ε α) (f : α → Except ε β) (b : β) :
    X >>= f = .ok b ↔ ∃ a, X = .ok a ∧ f a = .ok b := by
  cases X <;> simp [bindOk, bindErr]

/-- When no direct child of the statement list is a `return`, the
`encontrou_return` flag is unchanged by the body loop (returns nested in
`if`/`while` branches go through `checar_elemento` and never set it). -/
theorem corpoLoopFlag (nome : String) (isFunc : Bool) :
    ∀ (body : List Node) (st : Estado) (enc : Bool) (st' : Estado) (enc' : Bool),
      semReturnDireto body = true →
      corpoLoop nome isFunc st body enc = .ok (st', enc') → enc' = enc := by
  intro body
  induction body with
  | nil =>
    intro st enc st' enc' _ h
    simp only [corpoLoop, Except.ok.injEq, Prod.mk.injEq] at h
    exact h.2.symm
  | cons cmd resto ih =>
    intro st enc st' enc' hsem h
    have hresto : semReturnDireto resto = true := by
      simp only [semReturnDireto, List.all_cons, Bool.and_eq_true] at hsem
      exact hsem.2
    cases cmd with
    | ret e => simp [semReturnDireto] at hsem
    | vardecl tipo vnome expr? =>
      simp only [corpoLoop] at h
      rw [bindOkIff] at h
      obtain ⟨stv, _, h⟩ := h
      cases expr? with
      | none => exact ih _ _ _ _ hresto h
      | some e =>
        rw [bindOkIff] at h
        obtain ⟨t, _, h⟩ := h
        split at h
        · exact absurd h (by simp)
        · exact ih _ _ _ _ hresto h
    | assign anome expr =>
      simp only [corpoLoop] at h
      rw [bindOkIff] at h
      obtain ⟨u, _, h⟩ := h
      exact ih _ _ _ _ hresto h
    | call cnome args =>
      simp only [corpoLoop] at h
      rw [bindOkIff] at h
      obtain ⟨u, _, h⟩ := h
      exact ih _ _ _ _ hresto h
    | se cond body2 senao =>
      simp only [corpoLoop] at h
      rw [bindOkIff] at h
      obtain ⟨t, _, h⟩ := h
      split at h
      · exact absurd h (by simp)
      · rw [bindOkIff] at h
        obtain ⟨st1, _, h⟩ := h
        cases senao with
        | none => exact ih _ _ _ _ hresto h
        | some cmds =>
          rw [bindOkIff] at h
          obtain ⟨st3, _, h⟩ := h
          exact ih _ _ _ _ hresto h
    | enquanto cond body2 =>
      simp only [corpoLoop] at h
      rw [bindOkIff] at h
      obtain ⟨t, _, h⟩ := h
      split at h
      · exact absurd h (by simp)
      · rw [bindOkIff] at h
        obtain ⟨st1, _, h⟩ := h
        exact ih _ _ _ _ hresto h
    | imprime e =>
      simp only [corpoLoop] at h
      rw [bindOkIff] at h
      obtain ⟨t, _, h⟩ := h
      exact ih _ _ _ _ hresto h
    | jump op =>
      simp only [corpoLoop] at h
      split at h
      · exact absurd h (by simp)
      · exact ih _ _ _ _ hresto h
    | funcdecl a b c =>
      simp only [corpoLoop] at h
      rw [bindOkIff] at h
      obtain ⟨u, _, h⟩ := h
      exact ih _ _ _ _ hresto h
    | procdecl a b =>
      simp only [corpoLoop] at h
      rw [bindOkIff] at h
      obtain ⟨u, _, h⟩ := h
      exact ih _ _ _ _ hresto h
    | funcbody a b c =>
      simp only [corpoLoop] at h
      rw [bindOkIff] at h
      obtain ⟨u, _, h⟩ := h
      exact ih _ _ _ _ hresto h
    | procbody a b c =>
      simp only [corpoLoop] at h
      rw [bindOkIff] at h
      obtain ⟨u, _, h⟩ := h
      exact ih _ _ _ _ hresto h
    | outro k =>
      simp only [corpoLoop] at h
      rw [bindOkIff] at h
      obtain ⟨u, _, h⟩ := h
      exact ih _ _ _ _ hresto h

/-! ### Claim C2 -/

/-- Claim C2 counterexample: the function whose only `return` statements
sit inside the branches of an `if` is rejected, but NOT with the
missing-return error the claim names — the nested `return` reaches
`checar_elemento`, which raises the return-outside-body error first. -/
theorem progRetornoAninhadoContra :
    checarPrograma progRetornoAninhado = .error .returnForaDeCorpo ∧
    Erro.returnForaDeCorpo ≠ .funcaoSemRetorno "f" := by
  constructor
  · simp +decide [progRetornoAninhado, checarPrograma, checarProgramaEstado, fase1,
      fase1Passo, fase2, fase2Passo, fase3, fase3Funcoes, fase3Proceds,
      checarCorpoFuncional, declararParams, corpoLoop, checarElemento, checarLista,
      checarAssign, chamadaComoComando, chamadaEmExpressao, checarArgs,
      avaliarExpressaoTipo, declararVariavelAtual, buscarVariavel, buscaEscopos, busca,
      contem, adicionaSet, abrirEscopo, fecharEscopo, registrarFuncao,
      registrarProcedimento, estadoInicial, bindOk, bindErr]
  · decide

/-- Claim C2 (amended): checking a function body whose direct statement
list contains no `return` node never succeeds, and when the parameter
declarations and the statement loop themselves raise no error the failure
is precisely the missing-return error; a function whose only `return`
statements are nested inside the branches of an `if` is still rejected,
but with the return-outside-body error raised at the nested `return`, not
with the missing-return error. -/
theorem corpoSemReturnEspec (st : Estado) (nome : String) (params : List Param)
    (body : List Node) (h : semReturnDireto body = true) :
    (∀ r, checarCorpoFuncional st nome params body true ≠ .ok r) ∧
    (∀ st1 res, declararParams (abrirEscopo st) params = .ok st1 →
      corpoLoop nome true st1 body false = .ok res →
      checarCorpoFuncional st nome params body true = .error (.funcaoSemRetorno nome)) ∧
    checarPrograma progRetornoAninhado = .error .returnForaDeCorpo := by
  refine ⟨?_, ?_, ?_⟩
  · intro r hr
    simp only [checarCorpoFuncional] at hr
    rw [bindOkIff] at hr
    obtain ⟨st1, h1, hr⟩ := hr
    rw [bindOkIff] at hr
    obtain ⟨⟨st2, enc⟩, h2, hr⟩ := hr
    have henc : enc = false := corpoLoopFlag nome true body st1 false st2 enc h h2
    subst henc
    simp at hr
  · intro st1 res h1 h2
    obtain ⟨st2, enc⟩ := res
    have henc : enc = false := corpoLoopFlag nome true body st1 false st2 enc h h2
    subst henc
    simp only [checarCorpoFuncional]
    rw [h1, bindOk, h2, bindOk]
    simp
  · simp +decide [progRetornoAninhado, checarPrograma, checarProgramaEstado, fase1,
      fase1Passo, fase2, fase2Passo, fase3, fase3Funcoes, fase3Proceds,
      checarCorpoFuncional, declararParams, corpoLoop, checarElemento, checarLista,
      checarAssign, chamadaComoComando, chamadaEmExpressao, checarArgs,
      avaliarExpressaoTipo, declararVariavelAtual, buscarVariavel, buscaEscopos, busca,
      contem, adicionaSet, abrirEscopo, fecharEscopo, registrarFuncao,
      registrarProcedimento, estadoInicial, bindOk, bindErr]

/-- Witness for C2 (amended): a function body with an empty statement
list fails with the missing-return error. -/
theorem corpoSemReturnEspecTeste :
    checarCorpoFuncional estadoInicial "f" [] [] true =
      .error (.funcaoSemRetorno "f") :=
  (corpoSemReturnEspec estadoInicial "f" [] [] rfl).2.1 (abrirEscopo estadoInicial)
    (abrirEscopo estadoInicial, false) rfl rfl

/-! ### Claim C1 -/

/-- Counterexample to C1 as stated: on the specification's end-to-end
program, `checar_programa` does not succeed — the final statement calls
`print`, which is in neither signature table, so the check stops with the
undeclared-callee error. -/
theorem progExemploContra :
    checarPrograma progExemplo = .error (.chamadaNaoDeclarada "print") := by
  simp +decide [progExemplo, checarPrograma, checarProgramaEstado, fase1, fase1Passo,
    fase2, fase2Passo, fase3, fase3Funcoes, fase3Proceds, checarCorpoFuncional,
    declararParams, corpoLoop, checarElemento, checarLista, checarAssign,
    chamadaComoComando, chamadaEmExpressao, checarArgs, avaliarExpressaoTipo,
    declararVariavelAtual, buscarVariavel, buscaEscopos, busca, contem, adicionaSet,
    abrirEscopo, fecharEscopo, registrarFuncao, registrarProcedimento, estadoInicial,
    bindOk, bindErr]

/-- Claim C3 counterexample: after checking the one-node program
`if (true) then (vardecl int y)`, the variable `y` declared inside the
branch IS bound in the global scope — `checar_programa` pushes no scope
around a top-level branch, so the branch's declarations land in the
current (global) scope and survive the node. -/
theorem progRamoTopoContra :
    checarProgramaEstado progRamoTopo = .ok ⟨[], [], [[("y", "int")]]⟩ ∧
    buscarVariavel ⟨[], [], [[("y", "int")]]⟩ "y" = some "int" := by
  constructor
  · simp +decide [progRamoTopo, checarProgramaEstado, fase1, fase1Passo, fase2,
      fase2Passo, fase3, fase3Funcoes, fase3Proceds, checarElemento, checarLista,
      avaliarExpressaoTipo, declararVariavelAtual, buscarVariavel, buscaEscopos, busca,
      contem, abrirEscopo, fecharEscopo, estadoInicial, bindOk, bindErr]
  · rfl

/-- Claim C3 (amended): for a top-level `if`/`while`, `checar_programa`
requires the condition to type to boolean (non-boolean conditions fail
with the non-boolean-condition error), but it checks the branch
statements through the single-statement checker in the current scope
without pushing a fresh scope: a variable declared directly inside a
top-level branch is bound in the global scope, persists after the node,
and can be used by later top-level statements. -/
theorem seTopoEspec (st : Estado) (fb pb : List String) (cond : Expr)
    (body : List Node) (senao : Option (List Node)) (t : String)
    (ht : avaliarExpressaoTipo st cond = .ok t) (hb : t ≠ "boolean") :
    fase2Passo st fb pb (.se cond body senao) = .error (.condNaoBoolean "if") ∧
    fase2Passo st fb pb (.enquanto cond body) = .error (.condNaoBoolean "while") ∧
    checarProgramaEstado progRamoTopo = .ok ⟨[], [], [[("y", "int")]]⟩ ∧
    checarPrograma (progRamoTopo ++ [.assign "y" (.lit "int")]) = .ok () := by
  refine ⟨?_, ?_, ?_, ?_⟩
  · simp only [fase2Passo, ht, bindOk]
    rw [if_pos (by simpa using hb)]
  · simp only [fase2Passo, ht, bindOk]
    rw [if_pos (by simpa using hb)]
  all_goals
    simp +decide [progRamoTopo, checarPrograma, checarProgramaEstado, fase1, fase1Passo,
      fase2, fase2Passo, fase3, fase3Funcoes, fase3Proceds, checarElemento, checarLista,
      checarAssign, avaliarExpressaoTipo, declararVariavelAtual, buscarVariavel,
      buscaEscopos, busca, contem, abrirEscopo, fecharEscopo, estadoInicial,
      bindOk, bindErr]

/-- Witness for C3 (amended) at a non-boolean condition. -/
theorem seTopoEspecTeste :
    fase2Passo estadoInicial [] [] (.se (.lit "int") [] none) =
      .error (.condNaoBoolean "if") :=
  (seTopoEspec estadoInicial [] [] (.lit "int") [] none "int"
    (by simp [avaliarExpressaoTipo]) (by decide)).1

/-- Claim C1 (amended): on the end-to-end example program
`checar_programa` fails with the undeclared-callee error for `print`
(no name `print` is ever registered); with the final node written as the
analyzer's print-statement kind instead of a call, the program is
accepted. -/
theorem progExemploEspec :
    checarPrograma progExemplo = .error (.chamadaNaoDeclarada "print") ∧
    checarPrograma progExemploImprime = .ok () := by
  constructor <;>
    simp +decide [progExemplo, progExemploImprime, checarPrograma, checarProgramaEstado,
      fase1, fase1Passo, fase2, fase2Passo, fase3, fase3Funcoes, fase3Proceds,
      checarCorpoFuncional, declararParams, corpoLoop, checarElemento, checarLista,
      checarAssign, chamadaComoComando, chamadaEmExpressao, checarArgs,
      avaliarExpressaoTipo, declararVariavelAtual, buscarVariavel, buscaEscopos, busca,
      contem, adicionaSet, abrirEscopo, fecharEscopo, registrarFuncao,
      registrarProcedimento, estadoInicial, bindOk, bindErr]

/-! ### Claim C9 -/

/-- Declaring a parameter list with pairwise-distinct names into a fresh
or compatible innermost scope succeeds and appends the bindings in
order. -/
theorem declararParamsOk :
    ∀ (params : List Param) (funcs : List (String × String × List Param))
      (procs : List (String × List Param)) (esc : List (String × String))
      (resto : List (List (String × String))),
      (params.map fun p => p.2).Nodup →
      (∀ p ∈ params, contem esc p.2 = false) →
      declararParams ⟨funcs, procs, esc :: resto⟩ params =
        .ok ⟨funcs, procs, (esc ++ params.map fun p => (p.2, p.1)) :: resto⟩ := by
  intro params
  induction params with
  | nil =>
    intro funcs procs esc resto _ _
    simp [declararParams]
  | cons p resto2 ih =>
    intro funcs procs esc resto hnd hesc
    obtain ⟨tipo, pname⟩ := p
    simp only [List.map_cons, List.nodup_cons] at hnd
    have hhead : contem esc pname = false := hesc (tipo, pname) (List.mem_cons_self _ _)
    simp only [declararParams, declararVariavelAtual, hhead, Bool.false_eq_true,
      if_false, bindOk]
    rw [ih funcs procs (esc ++ [(pname, tipo)]) resto hnd.2 ?_]
    · rw [List.append_assoc]
      rfl
    · intro q hq
      rw [contemAppend, hesc q (List.mem_cons_of_mem _ hq), Bool.false_or]
      have hne : pname ≠ q.2 := fun he => hnd.1 (he ▸ List.mem_map_of_mem _ hq)
      simp [contem, busca, hne]

/-- A looked-up key that is the second component of a member of the
parameter list is present in the scope built from that list. -/
theorem buscaMapaParams :
    ∀ (ps : List Param) (q : Param), q ∈ ps →
      (busca (ps.map fun p => (p.2, p.1)) q.2).isSome = true := by
  intro ps
  induction ps with
  | nil => simp
  | cons p resto ih =>
    intro q hq
    simp only [List.map_cons, busca]
    by_cases he : (p.2 == q.2) = true
    · rw [if_pos he]
      rfl
    · rw [if_neg he]
      rcases List.mem_cons.mp hq with rfl | hm
      · exact absurd (by simp) he
      · exact ih q hm

/-- The body loop walks through a prefix of `print(var)` statements
without error and without changing state or flag, provided every printed
variable is bound — which is how a body can observe exactly which
parameter names were bound into its scope. -/
theorem corpoLoopImprime (nome : String) (isFunc : Bool) :
    ∀ (ps : List Param) (cont : List Node) (st : Estado) (enc : Bool),
      (∀ p ∈ ps, (buscarVariavel st p.2).isSome = true) →
      corpoLoop nome isFunc st ((ps.map fun p => .imprime (.var p.2)) ++ cont) enc =
        corpoLoop nome isFunc st cont enc := by
  intro ps
  induction ps with
  | nil =>
    intro cont st enc _
    rw [List.map_nil, List.nil_append]
  | cons p resto ih =>
    intro cont st enc h
    obtain ⟨t, ht⟩ := Option.isSome_iff_exists.mp (h p (List.mem_cons_self _ _))
    have hav : avaliarExpressaoTipo st (.var p.2) = .ok t := by
      simp [avaliarExpressaoTipo, ht]
    rw [List.map_cons, List.cons_append]
    simp only [corpoLoop, hav, bindOk]
    exact ih cont st enc fun q hq => h q (List.mem_cons_of_mem _ hq)

/-- Claim C9: the parameter list re-stated on a `funcbody` or `procbody`
node is bound into the body's scope exactly as given (the fresh scope is
precisely the body's own (name, type) pairs) and is never compared
against the parameter list recorded by the declaration — for every
declared parameter list and every body parameter list with distinct
names, both the program `funcdecl int f(declParams);
funcbody f(bodyParams){print each bodyParam; return int-lit;}` and the
program `procdecl p(declParams); procbody p(bodyParams){print each
bodyParam;}` are accepted, however the two lists differ in number, names,
or types; the bodies reference every body parameter, so acceptance
depends only on the body's own list and on the name existing in the
matching table. -/
theorem corpoParamsIndependentes (declParams bodyParams : List Param)
    (h : (bodyParams.map fun p => p.2).Nodup) :
    (∀ st : Estado, declararParams (abrirEscopo st) bodyParams =
      .ok { st with escopos := (bodyParams.map fun p => (p.2, p.1)) :: st.escopos }) ∧
    checarPrograma [.funcdecl "f" "int" declParams,
      .funcbody "f" bodyParams
        ((bodyParams.map fun p => .imprime (.var p.2)) ++ [.ret (.lit "int")])] =
      .ok () ∧
    checarPrograma [.procdecl "p" declParams,
      .procbody "p" bodyParams (bodyParams.map fun p => .imprime (.var p.2))] =
      .ok () := by
  have hA : ∀ st : Estado, declararParams (abrirEscopo st) bodyParams =
      .ok { st with escopos := (bodyParams.map fun p => (p.2, p.1)) :: st.escopos } := by
    intro st
    obtain ⟨funcs, procs, escopos⟩ := st
    have := declararParamsOk bodyParams funcs procs [] escopos h (fun q _ => rfl)
    simpa [abrirEscopo] using this
  have hbv : ∀ (funcs : List (String × String × List Param))
      (procs : List (String × List Param)), ∀ q ∈ bodyParams,
      (buscarVariavel
        ⟨funcs, procs, (bodyParams.map fun p => (p.2, p.1)) :: [[]]⟩ q.2).isSome = true := by
    intro funcs procs q hq
    obtain ⟨t, ht⟩ := Option.isSome_iff_exists.mp (buscaMapaParams bodyParams q hq)
    simp [buscarVariavel, buscaEscopos, ht]
  refine ⟨hA, ?_, ?_⟩
  · -- funcbody half
    have h1 : fase1 estadoInicial [.funcdecl "f" "int" declParams,
        .funcbody "f" bodyParams
          ((bodyParams.map fun p => .imprime (.var p.2)) ++ [.ret (.lit "int")])] =
        .ok ⟨[("f", "int", declParams)], [], [[]]⟩ := by
      simp [fase1, fase1Passo, registrarFuncao, contem, busca, estadoInicial, bindOk]
    have hloop : corpoLoop "f" true
        ⟨[("f", "int", declParams)], [], (bodyParams.map fun p => (p.2, p.1)) :: [[]]⟩
        ((bodyParams.map fun p => .imprime (.var p.2)) ++ [.ret (.lit "int")]) false =
        .ok (⟨[("f", "int", declParams)], [],
          (bodyParams.map fun p => (p.2, p.1)) :: [[]]⟩, true) := by
      rw [corpoLoopImprime "f" true bodyParams [.ret (.lit "int")] _ false
        (hbv [("f", "int", declParams)] [])]
      simp +decide [corpoLoop, busca, avaliarExpressaoTipo, bindOk, bindErr]
    have hc : checarCorpoFuncional ⟨[("f", "int", declParams)], [], [[]]⟩ "f" bodyParams
        ((bodyParams.map fun p => .imprime (.var p.2)) ++ [.ret (.lit "int")]) true =
        .ok ⟨[("f", "int", declParams)], [], [[]]⟩ := by
      simp only [checarCorpoFuncional, hA ⟨[("f", "int", declParams)], [], [[]]⟩, bindOk,
        hloop]
      simp [fecharEscopo]
    have h2 : fase2 ⟨[("f", "int", declParams)], [], [[]]⟩ [] []
        [.funcdecl "f" "int" declParams,
          .funcbody "f" bodyParams
            ((bodyParams.map fun p => .imprime (.var p.2)) ++ [.ret (.lit "int")])] =
        .ok (⟨[("f", "int", declParams)], [], [[]]⟩, ["f"], []) := by
      simp +decide [fase2, fase2Passo, checarElemento, hc, contem, busca, adicionaSet,
        bindOk, bindErr]
    simp [checarPrograma, checarProgramaEstado, h1, h2, fase3, fase3Funcoes,
      fase3Proceds, bindOk, bindErr]
  · -- procbody half
    have h1 : fase1 estadoInicial [.procdecl "p" declParams,
        .procbody "p" bodyParams (bodyParams.map fun p => .imprime (.var p.2))] =
        .ok ⟨[], [("p", declParams)], [[]]⟩ := by
      simp [fase1, fase1Passo, registrarProcedimento, contem, busca, estadoInicial,
        bindOk]
    have hloop : corpoLoop "p" false
        ⟨[], [("p", declParams)], (bodyParams.map fun p => (p.2, p.1)) :: [[]]⟩
        (bodyParams.map fun p => .imprime (.var p.2)) false =
        .ok (⟨[], [("p", declParams)],
          (bodyParams.map fun p => (p.2, p.1)) :: [[]]⟩, false) := by
      rw [← List.append_nil (bodyParams.map fun p => Node.imprime (Expr.var p.2)),
        corpoLoopImprime "p" false bodyParams [] _ false (hbv [] [("p", declParams)])]
      simp [corpoLoop]
    have hc : checarCorpoFuncional ⟨[], [("p", declParams)], [[]]⟩ "p" bodyParams
        (bodyParams.map fun p => .imprime (.var p.2)) false =
        .ok ⟨[], [("p", declParams)], [[]]⟩ := by
      simp only [checarCorpoFuncional, hA ⟨[], [("p", declParams)], [[]]⟩, bindOk, hloop]
      simp [fecharEscopo]
    have h2 : fase2 ⟨[], [("p", declParams)], [[]]⟩ [] []
        [.procdecl "p" declParams,
          .procbody "p" bodyParams (bodyParams.map fun p => .imprime (.var p.2))] =
        .ok (⟨[], [("p", declParams)], [[]]⟩, [], ["p"]) := by
      simp +decide [fase2, fase2Passo, checarElemento, hc, contem, busca, adicionaSet,
        bindOk, bindErr]
    simp [checarPrograma, checarProgramaEstado, h1, h2, fase3, fase3Funcoes,
      fase3Proceds, bindOk, bindErr]

/-- Witness for C9: declaration `f(int a, int b)` with body parameters
`(boolean z)` — different number, names and types — is accepted, the body
printing its own parameter `z`; likewise for procedure `p`. -/
theorem corpoParamsIndependentesTeste :
    checarPrograma [.funcdecl "f" "int" [("int", "a"), ("int", "b")],
      .funcbody "f" [("boolean", "z")]
        [.imprime (.var "z"), .ret (.lit "int")]] = .ok () ∧
    checarPrograma [.procdecl "p" [("int", "a"), ("int", "b")],
      .procbody "p" [("boolean", "z")] [.imprime (.var "z")]] = .ok () := by
  have h := corpoParamsIndependentes [("int", "a"), ("int", "b")] [("boolean", "z")]
    (by simp)
  exact ⟨h.2.1, h.2.2⟩

/-! ### Claim C5 -/

theorem fase3FuncoesEspec (tab : List (String × String × List Param)) (fb : List String) :
    (fase3Funcoes tab fb = .ok () ↔
      ∀ nome ∈ tab.map fun e => e.1, fb.contains nome = true) ∧
    (∀ e, fase3Funcoes tab fb = .error e → ∃ nome, e = .funcaoSemCorpo nome) := by
  induction tab with
  | nil =>
    refine ⟨by simp [fase3Funcoes], ?_⟩
    intro e h
    simp [fase3Funcoes] at h
  | cons ent resto ih =>
    obtain ⟨nome, tr, ps⟩ := ent
    constructor
    · by_cases hc : fb.contains nome = true
      · have hstep : fase3Funcoes ((nome, tr, ps) :: resto) fb = fase3Funcoes resto fb := by
          simp only [fase3Funcoes]
          rw [hc]
          simp
        rw [hstep, ih.1]
        simp only [List.map_cons, List.forall_mem_cons]
        exact (and_iff_right hc).symm
      · have hfalso : fb.contains nome = false := by simpa using hc
        have hstep : fase3Funcoes ((nome, tr, ps) :: resto) fb =
            .error (.funcaoSemCorpo nome) := by
          simp only [fase3Funcoes]
          rw [hfalso]
          simp
        rw [hstep]
        simp only [List.map_cons, List.forall_mem_cons]
        constructor
        · intro hx; exact absurd hx (by simp)
        · intro hx; exact absurd hx.1 hc
    · intro e h
      simp only [fase3Funcoes] at h
      split at h
      · exact ⟨nome, (Except.error.inj h).symm⟩
      · exact ih.2 e h

theorem fase3ProcedsEspec (tab : List (String × List Param)) (pb : List String) :
    (fase3Proceds tab pb = .ok () ↔
      ∀ nome ∈ tab.map fun e => e.1, pb.contains nome = true) ∧
    (∀ e, fase3Proceds tab pb = .error e → ∃ nome, e = .procSemCorpo nome) := by
  induction tab with
  | nil =>
    refine ⟨by simp [fase3Proceds], ?_⟩
    intro e h
    simp [fase3Proceds] at h
  | cons ent resto ih =>
    obtain ⟨nome, ps⟩ := ent
    constructor
    · by_cases hc : pb.contains nome = true
      · have hstep : fase3Proceds ((nome, ps) :: resto) pb = fase3Proceds resto pb := by
          simp only [fase3Proceds]
          rw [hc]
          simp
        rw [hstep, ih.1]
        simp only [List.map_cons, List.forall_mem_cons]
        exact (and_iff_right hc).symm
      · have hfalso : pb.contains nome = false := by simpa using hc
        have hstep : fase3Proceds ((nome, ps) :: resto) pb =
            .error (.procSemCorpo nome) := by
          simp only [fase3Proceds]
          rw [hfalso]
          simp
        rw [hstep]
        simp only [List.map_cons, List.forall_mem_cons]
        constructor
        · intro hx; exact absurd hx (by simp)
        · intro hx; exact absurd hx.1 hc
    · intro e h
      simp only [fase3Proceds] at h
      split at h
      · exact ⟨nome, (Except.error.inj h).symm⟩
      · exact ih.2 e h

/-- Claim C5: once the first two passes have succeeded, `checar_programa`
succeeds exactly when every name in the function table has a processed
`funcbody` and every name in the procedure table has a processed
`procbody`; every failure past that point is a missing-body error, and in
particular the one-node program `funcdecl int f()` fails with the
missing-body error for `f`. -/
theorem faltaCorpoEspec (prog : List Node) (st1 st2 : Estado) (fb pb : List String)
    (h1 : fase1 estadoInicial prog = .ok st1)
    (h2 : fase2 st1 [] [] prog = .ok (st2, fb, pb)) :
    (checarPrograma prog = .ok () ↔
      (∀ nome ∈ st2.tabFuncoes.map fun e => e.1, fb.contains nome = true) ∧
      (∀ nome ∈ st2.tabProceds.map fun e => e.1, pb.contains nome = true)) ∧
    (∀ e, checarPrograma prog = .error e → eMissingBody e = true) ∧
    checarPrograma [.funcdecl "f" "int" []] = .error (.funcaoSemCorpo "f") := by
  have hkey : checarPrograma prog = (fase3 st2 fb pb >>= fun _ => (.ok () : Except Erro Unit)) := by
    simp only [checarPrograma, checarProgramaEstado, h1, bindOk, h2]
    cases hF : fase3 st2 fb pb <;> simp [bindOk, bindErr]
  refine ⟨?_, ?_, ?_⟩
  · rw [hkey]
    simp only [fase3]
    cases hF : fase3Funcoes st2.tabFuncoes fb with
    | error e =>
      simp only [hF, bindErr]
      constructor
      · intro hx; exact absurd hx (by simp)
      · intro hx
        have := (fase3FuncoesEspec st2.tabFuncoes fb).1.mpr hx.1
        rw [hF] at this
        exact absurd this (by simp)
    | ok u =>
      cases u
      simp only [hF, bindOk]
      cases hP : fase3Proceds st2.tabProceds pb with
      | error e =>
        simp only [hP, bindErr]
        constructor
        · intro hx; exact absurd hx (by simp)
        · intro hx
          have := (fase3ProcedsEspec st2.tabProceds pb).1.mpr hx.2
          rw [hP] at this
          exact absurd this (by simp)
      | ok v =>
        cases v
        simp only [hP, bindOk]
        constructor
        · intro _
          exact ⟨(fase3FuncoesEspec st2.tabFuncoes fb).1.mp hF,
                 (fase3ProcedsEspec st2.tabProceds pb).1.mp hP⟩
        · intro _; trivial
  · intro e he
    rw [hkey] at he
    simp only [fase3] at he
    cases hF : fase3Funcoes st2.tabFuncoes fb with
    | error e' =>
      rw [hF, bindErr, bindErr] at he
      obtain ⟨nome, rfl⟩ := (fase3FuncoesEspec st2.tabFuncoes fb).2 e' hF
      cases he
      rfl
    | ok u =>
      cases u
      rw [hF, bindOk] at he
      cases hP : fase3Proceds st2.tabProceds pb with
      | error e' =>
        rw [hP, bindErr] at he
        obtain ⟨nome, rfl⟩ := (fase3ProcedsEspec st2.tabProceds pb).2 e' hP
        cases he
        rfl
      | ok v =>
        cases v
        rw [hP, bindOk] at he
        exact absurd he (by simp)
  · simp +decide [checarPrograma, checarProgramaEstado, fase1, fase1Passo, fase2,
      fase2Passo, fase3, fase3Funcoes, fase3Proceds, checarElemento, registrarFuncao,
      contem, busca, estadoInicial, bindOk, bindErr]

/-- Witness for C5 on the one-node program `funcdecl int f()`. -/
theorem faltaCorpoEspecTeste :
    checarPrograma [.funcdecl "f" "int" []] = .error (.funcaoSemCorpo "f") :=
  (faltaCorpoEspec [.funcdecl "f" "int" []]
    ⟨[("f", "int", [])], [], [[]]⟩ ⟨[("f", "int", [])], [], [[]]⟩ [] []
    (by simp [fase1, fase1Passo, registrarFuncao, contem, busca, estadoInicial, bindOk])
    (by simp [fase2, fase2Passo, checarElemento, bindOk])).2.2

/-! ### Claim C8 : lexer lemmas -/

theorem todasCasamConcat :
    ∀ (l1 l2 cont : List Char), todasCasam l1 (l2 ++ cont) → todasCasam l2 cont →
      todasCasam (l1 ++ l2) cont := by
  intro l1
  induction l1 with
  | nil => intro l2 cont _ h2; exact h2
  | cons c cs ih =>
    intro l2 cont h1 h2
    obtain ⟨hc, hcs⟩ := h1
    refine ⟨?_, ih l2 cont hcs h2⟩
    show padraoCasa c ((cs ++ l2) ++ cont) = true
    rw [List.append_assoc]
    exact hc

theorem todasCasamTodos :
    ∀ (l cont : List Char), (∀ c ∈ l, ∀ r, padraoCasa c r = true) → todasCasam l cont := by
  intro l
  induction l with
  | nil => intro cont _; trivial
  | cons c cs ih =>
    intro cont h
    exact ⟨h c (List.mem_cons_self _ _) _, ih cont fun d hd => h d (List.mem_cons_of_mem _ hd)⟩

/-- Matching is independent of the following characters for every pattern
class except the two-character `!=`. -/
theorem padraoCasaSemSufixo (c : Char)
    (h : (c.isDigit || isIdentStart c || c == '=' || c == '>' || c == '<' ||
      isOpSimples c || (pontuacaoTipo c).isSome || isEspaco c || c == '\n') = true) :
    ∀ r, padraoCasa c r = true := by
  intro r
  simp only [padraoCasa, Bool.or_eq_true] at h ⊢
  tauto

theorem tokenPalavraLinha (w : String) (l c : Nat) : (tokenPalavra w l c).linha = l := by
  unfold tokenPalavra
  split <;> rfl

theorem maiusculaReservadaNaoEOF (w : String) (h : palavrasReservadas.contains w = true) :
    maiuscula w ≠ "EOF" := by
  simp [palavrasReservadas] at h
  rcases h with rfl | rfl | rfl | rfl | rfl | rfl | rfl | rfl | rfl | rfl | rfl | rfl <;>
    decide

theorem tokenPalavraNaoEOF (w : String) (l c : Nat) : (tokenPalavra w l c).tipo ≠ "EOF" := by
  unfold tokenPalavra
  split
  · next h => exact maiusculaReservadaNaoEOF w h
  · exact (by decide : ("ID" : String) ≠ "EOF")

theorem pontuacaoTipoNaoEOF (c : Char) (t : String) (h : pontuacaoTipo c = some t) :
    t ≠ "EOF" := by
  unfold pontuacaoTipo at h
  split_ifs at h <;> simp at h <;> subst h <;> decide

theorem chainAnexa (acc : List Token) (tok : Token) (linha : Nat)
    (hch : List.Chain' (fun a b => a.linha ≤ b.linha) acc)
    (hle : ∀ t ∈ acc, t.linha ≤ linha) (htl : linha ≤ tok.linha) :
    List.Chain' (fun a b => a.linha ≤ b.linha) (acc ++ [tok]) := by
  rw [List.chain'_append]
  refine ⟨hch, List.chain'_singleton _, ?_⟩
  intro x hx y hy
  simp only [List.head?_cons, Option.mem_def, Option.some.injEq] at hy
  subst hy
  obtain ⟨hne, hx'⟩ := List.mem_getLast?_eq_getLast hx
  exact le_trans (hx' ▸ hle _ (List.getLast_mem hne)) htl

theorem membroAnexa {P : Token → Prop} (acc : List Token) (tok : Token)
    (hacc : ∀ t ∈ acc, P t) (htok : P tok) : ∀ t ∈ acc ++ [tok], P t := by
  intro t ht
  rcases List.mem_append.mp ht with h | h
  · exact hacc t h
  · rw [List.mem_singleton.mp h]
    exact htok

theorem lexLoopVazio (linha coluna : Nat) (acc : List Token)
    (hEOF : ∀ t ∈ acc, t.tipo ≠ "EOF")
    (hch : List.Chain' (fun a b => a.linha ≤ b.linha) acc)
    (hle : ∀ t ∈ acc, t.linha ≤ linha) :
    ∃ ts, lexLoop [] linha coluna acc = .ok ts ∧ linhaMonotona ts ∧ terminaComEOF ts := by
  refine ⟨acc ++ [⟨"EOF", .nil, linha, coluna⟩], by simp [lexLoop], ?_, acc, linha, coluna,
    rfl, hEOF⟩
  exact chainAnexa acc _ linha hch hle (le_refl _)

theorem passoComposto (cs tk cs' : List Char) (linha coluna linha' coluna' : Nat)
    (acc acc' : List Token)
    (hrec : lexLoop cs linha coluna acc = lexLoop cs' linha' coluna' acc')
    (hsplit : cs = tk ++ cs')
    (htk : todasCasam tk cs')
    (hconc :
      (∃ ts, lexLoop cs' linha' coluna' acc' = .ok ts ∧ linhaMonotona ts ∧ terminaComEOF ts) ∨
      (∃ e pre pos, lexLoop cs' linha' coluna' acc' = .error e ∧
        cs' = pre ++ e.simbolo :: pos ∧ padraoCasa e.simbolo pos = false ∧
        todasCasam pre (e.simbolo :: pos))) :
    (∃ ts, lexLoop cs linha coluna acc = .ok ts ∧ linhaMonotona ts ∧ terminaComEOF ts) ∨
    (∃ e pre pos, lexLoop cs linha coluna acc = .error e ∧
      cs = pre ++ e.simbolo :: pos ∧ padraoCasa e.simbolo pos = false ∧
      todasCasam pre (e.simbolo :: pos)) := by
  rcases hconc with ⟨ts, hok, hm, hf⟩ | ⟨e, pre, pos, herr, hdec, hnc, hpre⟩
  · exact Or.inl ⟨ts, hrec.trans hok, hm, hf⟩
  · refine Or.inr ⟨e, tk ++ pre, pos, hrec.trans herr, ?_, hnc, ?_⟩
    · rw [hsplit, hdec, List.append_assoc]
    · exact todasCasamConcat tk pre (e.simbolo :: pos) (hdec ▸ htk) hpre

theorem identCharCasa (ch : Char) (h : isIdentChar ch = true) :
    ∀ r, padraoCasa ch r = true := by
  apply padraoCasaSemSufixo
  simp only [isIdentChar, Char.isAlphanum, isIdentStart, Bool.or_eq_true] at h ⊢
  tauto

/-- The scan loop, on any remaining input satisfying the accumulator
invariants, either succeeds with a monotone, EOF-terminated token list or
stops with an error at the first position where no pattern matches. -/
theorem lexLoopEspec :
    ∀ (n : Nat) (cs : List Char), cs.length ≤ n →
    ∀ (linha coluna : Nat) (acc : List Token),
      (∀ t ∈ acc, t.tipo ≠ "EOF") →
      List.Chain' (fun a b => a.linha ≤ b.linha) acc →
      (∀ t ∈ acc, t.linha ≤ linha) →
      (∃ ts, lexLoop cs linha coluna acc = .ok ts ∧ linhaMonotona ts ∧ terminaComEOF ts) ∨
      (∃ e pre pos, lexLoop cs linha coluna acc = .error e ∧
        cs = pre ++ e.simbolo :: pos ∧ padraoCasa e.simbolo pos = false ∧
        todasCasam pre (e.simbolo :: pos)) := by
  intro n
  induction n with
  | zero =>
    intro cs hcs linha coluna acc hEOF hch hle
    have hnil : cs = [] := List.eq_nil_of_length_eq_zero (Nat.le_zero.mp hcs)
    subst hnil
    exact Or.inl (lexLoopVazio linha coluna acc hEOF hch hle)
  | succ n ih =>
    intro cs hcs linha coluna acc hEOF hch hle
    cases cs with
    | nil => exact Or.inl (lexLoopVazio linha coluna acc hEOF hch hle)
    | cons c resto =>
      have hresto : resto.length ≤ n := by
        simp only [List.length_cons] at hcs
        omega
      by_cases h1 : c.isDigit = true
      · -- NUM
        refine passoComposto _ (c :: resto.takeWhile Char.isDigit)
          (resto.dropWhile Char.isDigit) linha coluna linha
          (coluna + (c :: resto.takeWhile Char.isDigit).length) acc
          (acc ++ [⟨"NUM", .num (valorNumerico (c :: resto.takeWhile Char.isDigit)),
            linha, coluna⟩]) ?_ (by rw [List.cons_append, List.takeWhile_append_dropWhile])
          ?_ ?_
        · simp [lexLoop, h1]
        · refine todasCasamTodos _ _ ?_
          intro ch hmem r
          apply padraoCasaSemSufixo
          rcases List.mem_cons.mp hmem with rfl | hm
          · simp [h1]
          · simp [List.mem_takeWhile_imp hm]
        · exact ih _ ((comprimentoDropWhile _ _).trans hresto) _ _ _
            (membroAnexa acc _ hEOF (by exact (by decide : ("NUM" : String) ≠ "EOF")))
            (chainAnexa acc _ linha hch hle (le_refl linha))
            (membroAnexa acc _ hle (le_refl linha))
      · have h1' : c.isDigit = false := by simpa using h1
        by_cases h2 : isIdentStart c = true
        · -- ID / keyword
          refine passoComposto _ (c :: resto.takeWhile isIdentChar)
            (resto.dropWhile isIdentChar) linha coluna linha
            (coluna + (c :: resto.takeWhile isIdentChar).length) acc
            (acc ++ [tokenPalavra (String.mk (c :: resto.takeWhile isIdentChar))
              linha coluna]) ?_
            (by rw [List.cons_append, List.takeWhile_append_dropWhile]) ?_ ?_
          · simp [lexLoop, h1', h2]
          · refine todasCasamTodos _ _ ?_
            intro ch hmem r
            rcases List.mem_cons.mp hmem with rfl | hm
            · apply padraoCasaSemSufixo
              simp [h2]
            · exact identCharCasa ch (List.mem_takeWhile_imp hm) r
          · exact ih _ ((comprimentoDropWhile _ _).trans hresto) _ _ _
              (membroAnexa acc _ hEOF (tokenPalavraNaoEOF _ linha coluna))
              (chainAnexa acc _ linha hch hle (le_of_eq (tokenPalavraLinha _ _ _).symm))
              (membroAnexa acc _ hle (le_of_eq (tokenPalavraLinha _ _ _)))
        · have h2' : isIdentStart c = false := by simpa using h2
          by_cases h3 : (c == '=') = true
          · -- "==" or "="
            have hc : c = '=' := by simpa using h3
            subst hc
            by_cases hh : (resto.head? == some '=') = true
            · have hh' : resto.head? = some '=' := by simpa using hh
              cases resto with
              | nil => simp at hh'
              | cons r0 rs =>
                have hr0 : r0 = '=' := by simpa using hh'
                subst hr0
                refine passoComposto _ ['=', '='] rs linha coluna linha (coluna + 2) acc
                  (acc ++ [⟨"OP", .txt "==", linha, coluna⟩]) ?_ rfl ?_ ?_
                · simp +decide [lexLoop]
                · exact ⟨by simp +decide [padraoCasa], by simp +decide [padraoCasa], trivial⟩
                · exact ih _ (le_trans (by simp) hresto) _ _ _
                    (membroAnexa acc _ hEOF (by exact (by decide : ("OP" : String) ≠ "EOF")))
                    (chainAnexa acc _ linha hch hle (le_refl linha))
                    (membroAnexa acc _ hle (le_refl linha))
            · have hh' : (resto.head? == some '=') = false := by simpa using hh
              refine passoComposto _ ['='] resto linha coluna linha (coluna + 1) acc
                (acc ++ [⟨"ATRIB", .txt "=", linha, coluna⟩]) ?_ rfl ?_ ?_
              · simp +decide [lexLoop, hh']
              · exact ⟨by simp +decide [padraoCasa], trivial⟩
              · exact ih _ hresto _ _ _
                  (membroAnexa acc _ hEOF (by exact (by decide : ("ATRIB" : String) ≠ "EOF")))
                  (chainAnexa acc _ linha hch hle (le_refl linha))
                  (membroAnexa acc _ hle (le_refl linha))
          · have h3' : (c == '=') = false := by simpa using h3
            by_cases h4 : (c == '!') = true
            · -- "!=" or lexical error
              have hc : c = '!' := by simpa using h4
              subst hc
              by_cases hh : (resto.head? == some '=') = true
              · have hh' : resto.head? = some '=' := by simpa using hh
                cases resto with
                | nil => simp at hh'
                | cons r0 rs =>
                  have hr0 : r0 = '=' := by simpa using hh'
                  subst hr0
                  refine passoComposto _ ['!', '='] rs linha coluna linha (coluna + 2) acc
                    (acc ++ [⟨"OP", .txt "!=", linha, coluna⟩]) ?_ rfl ?_ ?_
                  · simp +decide [lexLoop]
                  · exact ⟨by simp +decide [padraoCasa], by simp +decide [padraoCasa], trivial⟩
                  · exact ih _ (le_trans (by simp) hresto) _ _ _
                      (membroAnexa acc _ hEOF (by exact (by decide : ("OP" : String) ≠ "EOF")))
                      (chainAnexa acc _ linha hch hle (le_refl linha))
                      (membroAnexa acc _ hle (le_refl linha))
              · have hh' : (resto.head? == some '=') = false := by simpa using hh
                refine Or.inr ⟨⟨'!', linha, coluna⟩, [], resto, ?_, rfl, ?_, trivial⟩
                · simp +decide [lexLoop, hh']
                · simp +decide [padraoCasa, hh']
            · have h4' : (c == '!') = false := by simpa using h4
              by_cases h5 : (c == '>') = true
              · have hc : c = '>' := by simpa using h5
                subst hc
                by_cases hh : (resto.head? == some '=') = true
                · have hh' : resto.head? = some '=' := by simpa using hh
                  cases resto with
                  | nil => simp at hh'
                  | cons r0 rs =>
                    have hr0 : r0 = '=' := by simpa using hh'
                    subst hr0
                    refine passoComposto _ ['>', '='] rs linha coluna linha (coluna + 2) acc
                      (acc ++ [⟨"OP", .txt ">=", linha, coluna⟩]) ?_ rfl ?_ ?_
                    · simp +decide [lexLoop]
                    · exact ⟨by simp +decide [padraoCasa], by simp +decide [padraoCasa],
                        trivial⟩
                    · exact ih _ (le_trans (by simp) hresto) _ _ _
                        (membroAnexa acc _ hEOF
                          (by exact (by decide : ("OP" : String) ≠ "EOF")))
                        (chainAnexa acc _ linha hch hle (le_refl linha))
                        (membroAnexa acc _ hle (le_refl linha))
                · have hh' : (resto.head? == some '=') = false := by simpa using hh
                  refine passoComposto _ ['>'] resto linha coluna linha (coluna + 1) acc
                    (acc ++ [⟨"OP", .txt ">", linha, coluna⟩]) ?_ rfl ?_ ?_
                  · simp +decide [lexLoop, hh']
                  · exact ⟨by simp +decide [padraoCasa], trivial⟩
                  · exact ih _ hresto _ _ _
                      (membroAnexa acc _ hEOF (by exact (by decide : ("OP" : String) ≠ "EOF")))
                      (chainAnexa acc _ linha hch hle (le_refl linha))
                      (membroAnexa acc _ hle (le_refl linha))
              · have h5' : (c == '>') = false := by simpa using h5
                by_cases h6 : (c == '<') = true
                · have hc : c = '<' := by simpa using h6
                  subst hc
                  by_cases hh : (resto.head? == some '=') = true
                  · have hh' : resto.head? = some '=' := by simpa using hh
                    cases resto with
                    | nil => simp at hh'
                    | cons r0 rs =>
                      have hr0 : r0 = '=' := by simpa using hh'
                      subst hr0
                      refine passoComposto _ ['<', '='] rs linha coluna linha (coluna + 2)
                        acc (acc ++ [⟨"OP", .txt "<=", linha, coluna⟩]) ?_ rfl ?_ ?_
                      · simp +decide [lexLoop]
                      · exact ⟨by simp +decide [padraoCasa], by simp +decide [padraoCasa],
                          trivial⟩
                      · exact ih _ (le_trans (by simp) hresto) _ _ _
                          (membroAnexa acc _ hEOF
                            (by exact (by decide : ("OP" : String) ≠ "EOF")))
                          (chainAnexa acc _ linha hch hle (le_refl linha))
                          (membroAnexa acc _ hle (le_refl linha))
                  · have hh' : (resto.head? == some '=') = false := by simpa using hh
                    refine passoComposto _ ['<'] resto linha coluna linha (coluna + 1) acc
                      (acc ++ [⟨"OP", .txt "<", linha, coluna⟩]) ?_ rfl ?_ ?_
                    · simp +decide [lexLoop, hh']
                    · exact ⟨by simp +decide [padraoCasa], trivial⟩
                    · exact ih _ hresto _ _ _
                        (membroAnexa acc _ hEOF
                          (by exact (by decide : ("OP" : String) ≠ "EOF")))
                        (chainAnexa acc _ linha hch hle (le_refl linha))
                        (membroAnexa acc _ hle (le_refl linha))
                · have h6' : (c == '<') = false := by simpa using h6
                  by_cases h7 : isOpSimples c = true
                  · -- single-character operator
                    refine passoComposto _ [c] resto linha coluna linha (coluna + 1) acc
                      (acc ++ [⟨"OP", .txt (String.mk [c]), linha, coluna⟩]) ?_ rfl ?_ ?_
                    · simp [lexLoop, h1', h2', h3', h4', h5', h6', h7]
                    · exact ⟨padraoCasaSemSufixo c (by simp [h7]) _, trivial⟩
                    · exact ih _ hresto _ _ _
                        (membroAnexa acc _ hEOF
                          (by exact (by decide : ("OP" : String) ≠ "EOF")))
                        (chainAnexa acc _ linha hch hle (le_refl linha))
                        (membroAnexa acc _ hle (le_refl linha))
                  · have h7' : isOpSimples c = false := by simpa using h7
                    cases hp : pontuacaoTipo c with
                    | some t =>
                      refine passoComposto _ [c] resto linha coluna linha (coluna + 1) acc
                        (acc ++ [⟨t, .txt (String.mk [c]), linha, coluna⟩]) ?_ rfl ?_ ?_
                      · simp [lexLoop, h1', h2', h3', h4', h5', h6', h7', hp]
                      · refine ⟨padraoCasaSemSufixo c (by simp [hp]) _, trivial⟩
                      · exact ih _ hresto _ _ _
                          (membroAnexa acc _ hEOF (pontuacaoTipoNaoEOF c t hp))
                          (chainAnexa acc _ linha hch hle (le_refl linha))
                          (membroAnexa acc _ hle (le_refl linha))
                    | none =>
                      by_cases h8 : isEspaco c = true
                      · -- whitespace: no token
                        refine passoComposto _ (c :: resto.takeWhile isEspaco)
                          (resto.dropWhile isEspaco) linha coluna linha
                          (coluna + (c :: resto.takeWhile isEspaco).length) acc acc ?_
                          (by rw [List.cons_append, List.takeWhile_append_dropWhile]) ?_ ?_
                        · simp [lexLoop, h1', h2', h3', h4', h5', h6', h7', hp, h8]
                        · refine todasCasamTodos _ _ ?_
                          intro ch hmem r
                          apply padraoCasaSemSufixo
                          rcases List.mem_cons.mp hmem with rfl | hm
                          · simp [h8]
                          · simp [List.mem_takeWhile_imp hm]
                        · exact ih _ ((comprimentoDropWhile _ _).trans hresto) _ _ _
                            hEOF hch hle
                      · have h8' : isEspaco c = false := by simpa using h8
                        by_cases h9 : (c == '\n') = true
                        · -- newline: line counter advances
                          have hc : c = '\n' := by simpa using h9
                          subst hc
                          refine passoComposto _ ['\n'] resto linha coluna (linha + 1) 1
                            acc acc ?_ rfl ?_ ?_
                          · simp +decide [lexLoop, hp]
                          · exact ⟨by simp +decide [padraoCasa], trivial⟩
                          · exact ih _ hresto _ _ _ hEOF hch
                              (fun t ht => le_trans (hle t ht) (Nat.le_succ linha))
                        · have h9' : (c == '\n') = false := by simpa using h9
                          -- lexical error: no pattern matches
                          refine Or.inr ⟨⟨c, linha, coluna⟩, [], resto, ?_, rfl, ?_, trivial⟩
                          · simp [lexLoop, h1', h2', h3', h4', h5', h6', h7', hp, h8', h9']
                          · simp [padraoCasa, h1', h2', h3', h4', h5', h6', h7', hp, h8', h9']

/-- Claim C8: for every input text, the scan either returns a token list
whose line numbers are monotonically non-decreasing and whose last
element is the single end-of-input marker, or stops with a lexical error
carrying the first character (given what follows it) that matches no
pattern, every earlier position having matched — never both, never
neither. -/
theorem analisarEspec (codigo : String) :
    (∃ ts, analisar codigo = .ok ts ∧ linhaMonotona ts ∧ terminaComEOF ts) ∨
    (∃ e pre pos, analisar codigo = .error e ∧
      codigo.data = pre ++ e.simbolo :: pos ∧ padraoCasa e.simbolo pos = false ∧
      todasCasam pre (e.simbolo :: pos)) :=
  lexLoopEspec codigo.data.length codigo.data (le_refl _) 1 1 []
    (by intro t ht; simp at ht) (List.chain'_nil) (by intro t ht; simp at ht)

end Compilador
